import Mathlib

/-!
Verification of the POE2-Spam-Culler log-tailing / spam-classification pipeline.

The development shallowly embeds the Python sources:
  - `core_plugins/core_spam_monitor.py` (CoreSpamMonitor: compile_patterns,
    analyse_spam_content, check_for_spam),
  - `client.py` (SpamMonitor variant, whose check_for_spam calls the
    nonexistent method `analyze_spam_content`),
  - `core_plugins/core_plugin_loader.py` (PluginLoader.call_plugin_method).

Strings are modelled as `List Char`.  Each compiled regular expression is
translated into an explicit matcher returning the captured text and the
number of characters consumed by the whole match; `re.findall` is modelled
by a left-to-right non-overlapping scan (`scanAllGo` / `findAll`), exactly
Python's strategy: try a match at each position, and after a successful
match resume at its end.
-/

abbrev Str := List Char

/-- Consumes the literal `pat` from the front of `s`, returning the rest on
success.  Models a regex literal (e.g. `discord`) consuming its characters. -/
def litDrop : Str → Str → Option Str
  | [], s => some s
  | _ :: _, [] => none
  | p :: ps, c :: cs => if p = c then litDrop ps cs else none

/-- Returns the first successful application of `f` along the list; models a
regex alternation `a|b|c`, which tries alternatives left to right. -/
def firstSome : List α → (α → Option β) → Option β
  | [], _ => none
  | a :: as, f => match f a with
    | some b => some b
    | none => firstSome as f

/-- Does `pat` occur at the very front of `s`? -/
def hasLead : Str → Str → Bool
  | [], _ => true
  | _ :: _, [] => false
  | p :: ps, c :: cs => p == c && hasLead ps cs

/-- Substring containment test; models Python's `pat in line`. -/
def containsSub (pat : Str) : Str → Bool
  | [] => hasLead pat []
  | c :: cs => hasLead pat (c :: cs) || containsSub pat cs

/-- Character class for the regex `\s` (ASCII whitespace; the log lines the
monitor handles are ASCII). -/
def isSpaceC (c : Char) : Bool :=
  c == ' ' || c == '\t' || c == '\n' || c == '\x0b' || c == '\x0c' || c == '\r'

/-- Character class for the regex `\d`. -/
def isDigitC (c : Char) : Bool := c.isDigit

/-- Character class for `[a-zA-Z0-9]` (also `[a-z0-9]` under the `(?i)` flag). -/
def isAlnumC (c : Char) : Bool := c.isAlphanum

/-- Character class `[:.\s]` used after the `discord` token. -/
def isSepDiscord (c : Char) : Bool := c == ':' || c == '.' || isSpaceC c

/-- Character class `[\s:]` used after `coupon`/`code`. -/
def isSepCoupon (c : Char) : Bool := isSpaceC c || c == ':'

/-- Character class `[,.]`, the obfuscatable dot separator of the url rule. -/
def isCommaDot (c : Char) : Bool := c == ',' || c == '.'

/-! The url rule.  Source: `core_spam_monitor.py` line 44-47:
`host_pattern = '|'.join(map(re.escape, self.spam_hosts))` and
`re.compile(rf'(?i)(?:www[,.])?(?:{host_pattern})[,.](?:com|net|org)')`.
With an empty host list the join is the empty string, so the inner group
`(?:)` matches the empty string; this is modelled by using `[""]` as the
alternative list exactly when `hosts` is empty. -/

/-- Consumes one of the suffixes `com`, `net`, `org` (tried in that order). -/
def tldDrop (t : Str) : Option Str :=
  match litDrop "com".toList t with
  | some r => some r
  | none => match litDrop "net".toList t with
    | some r => some r
    | none => litDrop "org".toList t

/-- Consumes `(?:{host_pattern})[,.](?:com|net|org)`: one blocked host (the
empty string when the block-list is empty), a `,` or `.`, then a TLD. -/
def hostTldDrop (hosts : List Str) (t : Str) : Option Str :=
  firstSome (if hosts.isEmpty then [([] : Str)] else hosts) fun h =>
    match litDrop h t with
    | none => none
    | some t1 =>
      match t1 with
      | [] => none
      | c :: r => if isCommaDot c then tldDrop r else none

/-- Attempts the whole url pattern at the front of `s`, returning the rest of
the string after the match.  The leading `(?:www[,.])?` is greedy: the branch
that consumes `www,`/`www.` is tried first, falling back to the bare host. -/
def urlRest (hosts : List Str) (s : Str) : Option Str :=
  match litDrop "www".toList s with
  | some (c :: r) =>
    if isCommaDot c then
      match hostTldDrop hosts r with
      | some t => some t
      | none => hostTldDrop hosts s
    else hostTldDrop hosts s
  | _ => hostTldDrop hosts s

/-- Url matcher at a fixed position: `re.findall` with no capturing group
returns the whole matched text, so the capture is the consumed segment. -/
def urlMatchAt (hosts : List Str) (s : Str) : Option (Str × Nat) :=
  match urlRest hosts s with
  | some rest => some (s.take (s.length - rest.length), s.length - rest.length)
  | none => none

/-! The discord rule.  Source line 51-53:
`re.compile(rf'(?i)(?:add\s+)?discord[:.\s]*([a-zA-Z0-9]+)')`. -/

/-- Consumes `discord[:.\s]*([a-zA-Z0-9]+)`, returning the captured handle
and the rest after the match.  The separator class and the alphanumeric
class are disjoint, so the greedy scans need no backtracking. -/
def discordCore (t : Str) : Option (Str × Str) :=
  match litDrop "discord".toList t with
  | none => none
  | some t1 =>
    let t2 := t1.dropWhile isSepDiscord
    let g := t2.takeWhile isAlnumC
    if g.isEmpty then none else some (g, t2.dropWhile isAlnumC)

/-- Discord matcher at a fixed position, with the greedy optional prefix
`(?:add\s+)?` tried first. -/
def discordMatchAt (s : Str) : Option (Str × Nat) :=
  let viaAdd :=
    match litDrop "add".toList s with
    | some t1 =>
      let ws := t1.takeWhile isSpaceC
      if ws.isEmpty then none else discordCore (t1.dropWhile isSpaceC)
    | none => none
  match (match viaAdd with | some r => some r | none => discordCore s) with
  | some (g, rest) => some (g, s.length - rest.length)
  | none => none

/-! The currency rule.  Source line 54-56:
`re.compile(r'(?i)((?:ex|div)/\s*\d+(?:\.\d+)?)\s*\$')`; `findall` returns
the single capturing group, which spans `(?:ex|div)/\s*\d+(?:\.\d+)?`. -/

/-- Currency matcher at a fixed position. -/
def currencyMatchAt (s : Str) : Option (Str × Nat) :=
  match (match litDrop "ex/".toList s with
         | some r => some r
         | none => litDrop "div/".toList s) with
  | none => none
  | some t1 =>
    let t2 := t1.dropWhile isSpaceC
    let ds := t2.takeWhile isDigitC
    if ds.isEmpty then none else
    let t3 := t2.dropWhile isDigitC
    let t4 := match t3 with
      | '.' :: r => if (r.takeWhile isDigitC).isEmpty then t3 else r.dropWhile isDigitC
      | _ => t3
    let g := s.take (s.length - t4.length)
    match t4.dropWhile isSpaceC with
    | '$' :: rest => some (g, s.length - rest.length)
    | _ => none

/-! The coupon rule.  Source line 58-60:
`re.compile(r'(?i)(?:coupon|code)[\s:]*([a-z0-9]+)(?:[^\d]+(\d+)%\s*off)')`;
`findall` returns `(code, percentage)` pairs.  The greedy code capture
`([a-z0-9]+)` genuinely backtracks: when the filler `[^\d]+` cannot start
after the full alphanumeric run, trailing characters of the run are given
back one by one (e.g. `code abc12% off` captures `("ab", "12")`). -/

/-- Consumes `[^\d]+(\d+)%\s*off` and returns the captured digits with the
rest after `off`. -/
def couponTail (t : Str) : Option (Str × Str) :=
  let nd := t.takeWhile (fun c => !(isDigitC c))
  if nd.isEmpty then none else
  let t1 := t.dropWhile (fun c => !(isDigitC c))
  let ds := t1.takeWhile isDigitC
  if ds.isEmpty then none else
  match t1.dropWhile isDigitC with
  | '%' :: r =>
    match litDrop "off".toList (r.dropWhile isSpaceC) with
    | some rest => some (ds, rest)
    | none => none
  | _ => none

/-- Backtracks the greedy code capture: `g1rev` is the reversed current
candidate (initially the whole alphanumeric run), `t` the text after it.
On failure the candidate's last character is returned to the text. -/
def couponShrink : Str → Str → Option (Str × Str × Str)
  | [], _ => none
  | c :: gr, t =>
    match couponTail t with
    | some (g2, rest) => some ((c :: gr).reverse, g2, rest)
    | none => couponShrink gr (c :: t)

/-- Coupon matcher at a fixed position. -/
def couponMatchAt (s : Str) : Option ((Str × Str) × Nat) :=
  match (match litDrop "coupon".toList s with
         | some r => some r
         | none => litDrop "code".toList s) with
  | none => none
  | some t1 =>
    let t2 := t1.dropWhile isSepCoupon
    let run := t2.takeWhile isAlnumC
    if run.isEmpty then none else
    match couponShrink run.reverse (t2.dropWhile isAlnumC) with
    | some (g1, g2, rest) => some ((g1, g2), s.length - rest.length)
    | none => none

/-! Generic `re.findall` scan: try the matcher at every position from left to
right; after a match of `n` characters, the next `n - 1` positions are inside
the match and are skipped (non-overlapping matches); a zero-width match still
advances one position, as Python's scanner does. -/

/-- Position-indexed scan; `pos` is the absolute index of the current suffix
and `skip` the number of positions still covered by the previous match. -/
def scanAllGo (m : Str → Option (α × Nat)) : Str → Nat → Nat → List (Nat × α)
  | [], _, _ => []
  | c :: cs, pos, skip =>
    if skip = 0 then
      match m (c :: cs) with
      | some (a, n) => (pos, a) :: scanAllGo m cs (pos + 1) (max n 1 - 1)
      | none => scanAllGo m cs (pos + 1) 0
    else scanAllGo m cs (pos + 1) (skip - 1)

/-- All captures of the matcher over `s`, in scan order; models `findall`. -/
def findAll (m : Str → Option (α × Nat)) (s : Str) : List α :=
  (scanAllGo m s 0 0).map Prod.snd

/-- All url-rule matches; `pattern.findall(message_lower)` for the url rule. -/
def urlFindAll (hosts : List Str) (s : Str) : List Str := findAll (urlMatchAt hosts) s

/-- All discord-rule captures. -/
def discordFindAll (s : Str) : List Str := findAll discordMatchAt s

/-- All currency-rule captures. -/
def currencyFindAll (s : Str) : List Str := findAll currencyMatchAt s

/-- All coupon-rule captures. -/
def couponFindAll (s : Str) : List (Str × Str) := findAll couponMatchAt s

/-! Classifier.  Source: `CoreSpamMonitor.analyse_spam_content`
(`core_spam_monitor.py` lines 66-119; `client.py` lines 194-247 is textually
identical).  The happy path builds the full indicator dictionary; the
`except` arm (lines 117-119) returns the dictionary `{'is_spam': False}`,
which lacks the four match fields — the two shapes are the two constructors
of `AnalyseResult`. -/

/-- Full verdict dictionary built by the `try` body of
`analyse_spam_content`. -/
structure SpamVerdict where
  is_spam : Bool
  detected_urls : List Str
  detected_discord : List Str
  currency_offers : List Str
  coupon_codes : List (Str × Str)
deriving DecidableEq, Repr

/-- Result of `analyse_spam_content`: either the full dictionary or the
degraded `{'is_spam': False}` dictionary of the error path. -/
inductive AnalyseResult
  | ok (v : SpamVerdict)
  | degraded
deriving DecidableEq, Repr

/-- Reads `is_spam`, the one key present in both result shapes. -/
def isSpamOf : AnalyseResult → Bool
  | .ok v => v.is_spam
  | .degraded => false

/-- Reads `detected_urls`; absent (`none`) on the degraded dictionary. -/
def AnalyseResult.getUrls : AnalyseResult → Option (List Str)
  | .ok v => some v.detected_urls
  | .degraded => none

/-- Reads `detected_discord`; absent on the degraded dictionary. -/
def AnalyseResult.getDiscord : AnalyseResult → Option (List Str)
  | .ok v => some v.detected_discord
  | .degraded => none

/-- Reads `currency_offers`; absent on the degraded dictionary. -/
def AnalyseResult.getCurrency : AnalyseResult → Option (List Str)
  | .ok v => some v.currency_offers
  | .degraded => none

/-- Reads `coupon_codes`; absent on the degraded dictionary. -/
def AnalyseResult.getCoupons : AnalyseResult → Option (List (Str × Str))
  | .ok v => some v.coupon_codes
  | .degraded => none

/-- Body of the `try` block of `analyse_spam_content`: lower the message
once, run the four rule families in source order, and for each rule with a
non-empty match list set `is_spam` and extend the corresponding field. -/
def analyseSpamContentBody (hosts : List Str) (message : Str) : SpamVerdict :=
  let ml := message.map Char.toLower
  let s0 : SpamVerdict := ⟨false, [], [], [], []⟩
  let u := urlFindAll hosts ml
  let s1 := if u.isEmpty then s0 else
    { s0 with is_spam := true, detected_urls := s0.detected_urls ++ u }
  let d := discordFindAll ml
  let s2 := if d.isEmpty then s1 else
    { s1 with is_spam := true, detected_discord := s1.detected_discord ++ d }
  let cu := currencyFindAll ml
  let s3 := if cu.isEmpty then s2 else
    { s2 with is_spam := true, currency_offers := s2.currency_offers ++ cu }
  let co := couponFindAll ml
  if co.isEmpty then s3 else
    { s3 with is_spam := true, coupon_codes := s3.coupon_codes ++ co }

/-- The method `analyse_spam_content`.  `exc` injects the "rule application
raised an unexpected error" event handled by the `except` arm: `none` is the
normal run, `some e` a run in which the body raised exception text `e` and
the handler logged it and returned `{'is_spam': False}`. -/
def analyseSpamContent (hosts : List Str) (exc : Option Str) (message : Str) :
    AnalyseResult :=
  match exc with
  | some _ => .degraded
  | none => .ok (analyseSpamContentBody hosts message)

/-! Log tailing.  Source: `CoreSpamMonitor.check_for_spam`
(`core_spam_monitor.py` lines 121-172). -/

/-- Splitting of the newly read text into lines; models `str.splitlines` on
its common terminators `\n`, `\r` and `\r\n` (a trailing terminator does not
produce a final empty line). -/
def splitLinesGo (acc : Str) : Str → List Str
  | [] => [acc.reverse]
  | '\r' :: '\n' :: r => acc.reverse :: (if r.isEmpty then [] else splitLinesGo [] r)
  | '\n' :: r => acc.reverse :: (if r.isEmpty then [] else splitLinesGo [] r)
  | '\r' :: r => acc.reverse :: (if r.isEmpty then [] else splitLinesGo [] r)
  | c :: r => splitLinesGo (c :: acc) r

/-- Models `new_content.splitlines()`. -/
def splitLines (s : Str) : List Str :=
  if s.isEmpty then [] else splitLinesGo [] s

/-- Matcher for `from_pattern` = `\[INFO Client \d+\] ([^:]+): (.+)` at a
fixed position: the literal tag, a numeric client id, then the player name
(greedy up to the first colon) and the message (the rest of the line). -/
def fromMatchAt (s : Str) : Option (Str × Str) :=
  match litDrop "[INFO Client ".toList s with
  | none => none
  | some t1 =>
    let ds := t1.takeWhile isDigitC
    if ds.isEmpty then none else
    match litDrop "] ".toList (t1.dropWhile isDigitC) with
    | none => none
    | some t2 =>
      let g1 := t2.takeWhile (fun c => !(c == ':'))
      if g1.isEmpty then none else
      match t2.dropWhile (fun c => !(c == ':')) with
      | ':' :: ' ' :: t3 =>
        let g2 := t3.takeWhile (fun c => !(c == '\n'))
        if g2.isEmpty then none else some (g1, g2)
      | _ => none

/-- Models `self.from_pattern.search(line)`: the match at the leftmost
position where one exists, giving the `(player, message)` groups. -/
def fromSearch : Str → Option (Str × Str)
  | [] => none
  | c :: cs =>
    match fromMatchAt (c :: cs) with
    | some r => some r
    | none => fromSearch cs

/-- Spam report dictionary built at `core_spam_monitor.py` lines 163-168. -/
structure SpamReport where
  timestamp : Str
  player : Str
  message : Str
  spam_details : AnalyseResult
deriving DecidableEq, Repr

/-- Per-line loop of the core `check_for_spam` (lines 152-170): for each
line containing `[INFO Client`, extract player and message, strip the
player's leading non-alphanumerics, classify, and — on the first spam
verdict — build the report and RETURN it (line 170 `return spam_report`
leaves the loop and the whole method at the first spam line).  `excFor`
injects the per-message classification failures handled inside
`analyse_spam_content`; `now` is the wall-clock `time.strftime` text. -/
def processLinesCore (hosts : List Str) (excFor : Str → Option Str) (now : Str) :
    List Str → Option SpamReport
  | [] => none
  | line :: rest =>
    if containsSub "[INFO Client".toList line then
      match fromSearch line with
      | some (g1, g2) =>
        let player := g1.dropWhile (fun c => !(isAlnumC c))
        let analysis := analyseSpamContent hosts (excFor g2) g2
        if isSpamOf analysis then some ⟨now, player, g2, analysis⟩
        else processLinesCore hosts excFor now rest
      | none => processLinesCore hosts excFor now rest
    else processLinesCore hosts excFor now rest

/-- Observable filesystem state and injected transient I/O failures for one
poll: whether `log_file.exists()`, the file bytes at the stat/read snapshot,
and whether `stat`, `open` or `read` raises. -/
structure PollEnv where
  fileExists : Bool
  content : Str
  statErr : Bool
  openErr : Bool
  readErr : Bool
deriving DecidableEq, Repr

/-- Outcome of one core poll: the new `last_size`, the returned report (the
method returns the first spam report or `None`), whether an error was
logged (the missing-file early return or the outer `except` arm), and the
offset passed to `file.seek` when the read was reached. -/
structure PollOutcome where
  last_size : Nat
  report : Option SpamReport
  errorCaught : Bool
  seekPos : Option Nat
deriving DecidableEq, Repr

/-- The core `check_for_spam` (lines 136-172) as a state transformer on
`last_size`.  Order of events, as in the source: existence check; stat;
truncation reset (`current_size < last_size` resets to 0 with a warning);
if there are new bytes, open, seek to `last_size`, read to end, set
`last_size = current_size`, then scan the lines.  An injected I/O failure
jumps to the outer `except`, which logs and returns with whatever state had
been mutated so far. -/
def coreCheckForSpam (hosts : List Str) (excFor : Str → Option Str) (now : Str)
    (last_size : Nat) (env : PollEnv) : PollOutcome :=
  if !env.fileExists then ⟨last_size, none, true, none⟩
  else if env.statErr then ⟨last_size, none, true, none⟩
  else
    let current_size := env.content.length
    let ls1 := if current_size < last_size then 0 else last_size
    if ls1 < current_size then
      if env.openErr then ⟨ls1, none, true, none⟩
      else if env.readErr then ⟨ls1, none, true, some ls1⟩
      else
        ⟨current_size,
         processLinesCore hosts excFor now (splitLines (env.content.drop ls1)),
         false, some ls1⟩
    else ⟨ls1, none, false, none⟩

/-! The `client.py` variant.  `SpamMonitor.check_for_spam` (lines 249-299)
is the same tailing loop, but line 289 invokes `self.analyze_spam_content`,
a method the class does not define (it defines `analyse_spam_content`,
line 194), so the call raises `AttributeError` on the first parsed
candidate line; the outer `except` (line 298) swallows it.  The variant
also never returns reports — it only logs them — and `last_size` was
already advanced at line 278, before the loop. -/

/-- Per-line loop of the client variant: reports logged before the failure
(there can be none, since the very first classification call raises), and
whether the `AttributeError` was raised. -/
def clientProcessLines : List Str → List SpamReport × Bool
  | [] => ([], false)
  | line :: rest =>
    if containsSub "[INFO Client".toList line then
      match fromSearch line with
      | some _ => ([], true)
      | none => clientProcessLines rest
    else clientProcessLines rest

/-- Outcome of one client-variant poll. -/
structure ClientPollOutcome where
  last_size : Nat
  reports : List SpamReport
  errorCaught : Bool
deriving DecidableEq, Repr

/-- The client `check_for_spam` as a state transformer on `last_size`. -/
def clientCheckForSpam (last_size : Nat) (env : PollEnv) : ClientPollOutcome :=
  if !env.fileExists then ⟨last_size, [], true⟩
  else if env.statErr then ⟨last_size, [], true⟩
  else
    let current_size := env.content.length
    let ls1 := if current_size < last_size then 0 else last_size
    if ls1 < current_size then
      if env.openErr then ⟨ls1, [], true⟩
      else if env.readErr then ⟨ls1, [], true⟩
      else
        let pr := clientProcessLines (splitLines (env.content.drop ls1))
        ⟨current_size, pr.1, pr.2⟩
    else ⟨ls1, [], false⟩

/-! Plugin dispatch.  Source: `PluginLoader.call_plugin_method`
(`core_plugin_loader.py` lines 55-66): iterate the registered plugins; for
each one exposing the method, call it inside `try`, log success for a
truthy result and failure for a falsy one, and log (and swallow) any
exception, always continuing with the next plugin. -/

/-- Outcome of invoking the named method on one plugin: a returned boolean
or a raised exception. -/
inductive CallResult
  | ok (b : Bool)
  | raises (e : Str)
deriving DecidableEq, Repr

/-- One log record produced by `call_plugin_method`. -/
inductive DispatchLog
  | success (plugin : Str)
  | failure (plugin : Str)
  | error (plugin : Str) (e : Str)
deriving DecidableEq, Repr

/-- A registered plugin for a fixed method name: its name paired with
`none` when `hasattr` fails, else the outcome of calling the method. -/
abbrev PluginEntry := Str × Option CallResult

/-- The log produced for one plugin, when it exposes the method. -/
def dispatchEntry (p : PluginEntry) : Option DispatchLog :=
  match p.2 with
  | none => none
  | some (.ok b) => some (if b then .success p.1 else .failure p.1)
  | some (.raises e) => some (.error p.1 e)

/-- The dispatch loop of `call_plugin_method`, returning the log records in
iteration order. -/
def callPluginMethod : List PluginEntry → List DispatchLog
  | [] => []
  | (_, none) :: rest => callPluginMethod rest
  | (name, some (.ok b)) :: rest =>
    (if b then .success name else .failure name) :: callPluginMethod rest
  | (name, some (.raises e)) :: rest => .error name e :: callPluginMethod rest

/-! Observation helpers and concrete fixtures used by the claim theorems. -/

/-- Currency offers recorded in an optional report (empty when absent). -/
def reportCurrency (o : Option SpamReport) : List Str :=
  match o with
  | some r => (r.spam_details.getCurrency).getD []
  | none => []

/-- Discord handles recorded in an optional report (empty when absent). -/
def reportDiscord (o : Option SpamReport) : List Str :=
  match o with
  | some r => (r.spam_details.getDiscord).getD []
  | none => []

/-- Log content with two spam lines appended in one batch (claim C1). -/
def c1content : Str :=
  "[INFO Client 1] Alice: dm discord:alpha1\n[INFO Client 2] Bob: dm discord:beta2\n".toList

/-- Poll environment for the two-spam-line batch. -/
def c1env : PollEnv := ⟨true, c1content, false, false, false⟩

/-- Poll environment of the end-to-end scenario (claim C2): the file grown
from offset 0 to the single specified line. -/
def c2env : PollEnv :=
  ⟨true, "[INFO Client 123] Xx_Player_xX: Buy ex/150$ cheap, dm discord:seller99".toList,
   false, false, false⟩

/-- The C2 poll: block-list with one (non-matching) host, no injected
classification failure, a fixed wall-clock text. -/
def c2poll : PollOutcome :=
  coreCheckForSpam ["spamsite".toList] (fun _ => none)
    "01-01-2026 00:00:00".toList 0 c2env

/-- Poll environment for claim C7's counterexample: the file shrank to 100
bytes below the stored offset 500, and then `open` fails. -/
def c7env : PollEnv := ⟨true, List.replicate 100 'a', false, true, false⟩

/-- Poll environment for claim C8's witness: one parse-candidate line. -/
def c8env : PollEnv :=
  ⟨true, "[INFO Client 1] A: discord:x".toList, false, false, false⟩

/-! Helper lemmas about the scanner and the classifier. -/

/-- Every match recorded by the scanner sits at or after the current
position. -/
theorem scanAllGo_le {α : Type} {m : Str → Option (α × Nat)} (s : Str) :
    ∀ pos skip (q : Nat × α), q ∈ scanAllGo m s pos skip → pos ≤ q.1 := by
  induction s with
  | nil => intro pos skip q h; simp [scanAllGo] at h
  | cons c cs ih =>
    intro pos skip q h
    unfold scanAllGo at h
    split at h
    · split at h
      · rcases List.mem_cons.mp h with h1 | h2
        · subst h1; exact Nat.le_refl _
        · exact Nat.le_of_succ_le (ih (pos + 1) _ q h2)
      · exact Nat.le_of_succ_le (ih (pos + 1) 0 q h)
    · exact Nat.le_of_succ_le (ih (pos + 1) (skip - 1) q h)

/-- Match positions recorded by the scanner are strictly increasing: the
captures of one category come out in left-to-right order of occurrence. -/
theorem scanAllGo_chain {α : Type} {m : Str → Option (α × Nat)} (s : Str) :
    ∀ pos skip, List.Chain' (· < ·) ((scanAllGo m s pos skip).map Prod.fst) := by
  induction s with
  | nil => intro pos skip; simp [scanAllGo]
  | cons c cs ih =>
    intro pos skip
    unfold scanAllGo
    split
    · split
      · rw [List.map_cons, List.chain'_cons']
        refine ⟨?_, ih _ _⟩
        intro y hy
        rw [List.head?_map] at hy
        obtain ⟨q, hq, hqy⟩ := Option.map_eq_some'.mp hy
        have hmem : q ∈ scanAllGo m cs (pos + 1) _ := List.mem_of_mem_head? hq
        have := scanAllGo_le cs (pos + 1) _ q hmem
        omega
      · exact ih _ _
    · exact ih _ _

/-- If the matcher succeeds on some suffix of `s`, the scan from position 0
is non-empty (the scanner tries every position and never skips past an
earlier successful one while not inside a match). -/
theorem scanAllGo_ne_nil {α : Type} {m : Str → Option (α × Nat)}
    (hnil : m [] = none) :
    ∀ s t : Str, t <:+ s → (m t).isSome = true → ∀ pos, scanAllGo m s pos 0 ≠ [] := by
  intro s
  induction s with
  | nil =>
    intro t ht hm pos
    rw [List.suffix_nil.mp ht, hnil] at hm
    simp at hm
  | cons c cs ih =>
    intro t ht hm pos
    unfold scanAllGo
    simp only [if_pos rfl]
    cases hmc : m (c :: cs) with
    | some an => simp
    | none =>
      simp only []
      rcases List.suffix_cons_iff.mp ht with h1 | h2
      · rw [h1, hmc] at hm; simp at hm
      · exact ih t h2 hm (pos + 1)

/-- Decomposes a successful substring test into a witnessing suffix. -/
theorem containsSub_suffix (pat : Str) :
    ∀ s, containsSub pat s = true → ∃ t, t <:+ s ∧ hasLead pat t = true := by
  intro s
  induction s with
  | nil => intro h; exact ⟨[], List.suffix_rfl, h⟩
  | cons c cs ih =>
    intro h
    rcases Bool.or_eq_true_iff.mp h with h1 | h2
    · exact ⟨c :: cs, List.suffix_rfl, h1⟩
    · obtain ⟨t, ht, hl⟩ := ih h2
      exact ⟨t, ht.trans (List.suffix_cons c cs), hl⟩

/-- A successful front test exhibits the pattern as a leading segment. -/
theorem hasLead_append (pat : Str) :
    ∀ t, hasLead pat t = true → ∃ r, t = pat ++ r := by
  induction pat with
  | nil => intro t _; exact ⟨t, rfl⟩
  | cons p ps ih =>
    intro t h
    cases t with
    | nil => simp [hasLead] at h
    | cons c cs =>
      simp only [hasLead, Bool.and_eq_true, beq_iff_eq] at h
      obtain ⟨r, hr⟩ := ih cs h.2
      exact ⟨r, by rw [h.1, List.cons_append, ← hr]⟩

/-- With an empty block-list the url matcher fires on a bare `.com`. -/
theorem urlMatchAt_dotcom (r : Str) :
    urlMatchAt [] ('.' :: 'c' :: 'o' :: 'm' :: r) =
      some (['.', 'c', 'o', 'm'], 4) := by
  have hlen : List.length r + 1 + 1 + 1 + 1 - List.length r = 4 := by omega
  simp [urlMatchAt, urlRest, hostTldDrop, firstSome, litDrop, tldDrop, isCommaDot,
    hlen, List.take]

/-- An empty alternation list never consumes from the empty string. -/
theorem hostTldDrop_nil (hosts : List Str) : hostTldDrop hosts [] = none := by
  unfold hostTldDrop
  generalize (if hosts.isEmpty then [([] : Str)] else hosts) = alts
  induction alts with
  | nil => rfl
  | cons h hs ih =>
    cases h with
    | nil => simpa [firstSome, litDrop] using ih
    | cons c cs => simpa [firstSome, litDrop] using ih

/-- The url matcher rejects the empty string. -/
theorem urlMatchAt_nil (hosts : List Str) : urlMatchAt hosts [] = none := by
  simp [urlMatchAt, urlRest, litDrop, hostTldDrop_nil]

/-- Field-by-field characterisation of the classifier body: every category
rule contributes exactly its own `findall` result (no rule is skipped and no
rule affects another's field), and `is_spam` is set exactly when some
category matched. -/
theorem analyseBody_fields (hosts : List Str) (msg : Str) :
    (analyseSpamContentBody hosts msg).detected_urls
        = urlFindAll hosts (msg.map Char.toLower) ∧
    (analyseSpamContentBody hosts msg).detected_discord
        = discordFindAll (msg.map Char.toLower) ∧
    (analyseSpamContentBody hosts msg).currency_offers
        = currencyFindAll (msg.map Char.toLower) ∧
    (analyseSpamContentBody hosts msg).coupon_codes
        = couponFindAll (msg.map Char.toLower) ∧
    (analyseSpamContentBody hosts msg).is_spam
        = (!(urlFindAll hosts (msg.map Char.toLower)).isEmpty ||
           !(discordFindAll (msg.map Char.toLower)).isEmpty ||
           !(currencyFindAll (msg.map Char.toLower)).isEmpty ||
           !(couponFindAll (msg.map Char.toLower)).isEmpty) := by
  unfold analyseSpamContentBody
  by_cases h1 : (urlFindAll hosts (msg.map Char.toLower)).isEmpty <;>
    by_cases h2 : (discordFindAll (msg.map Char.toLower)).isEmpty <;>
      by_cases h3 : (currencyFindAll (msg.map Char.toLower)).isEmpty <;>
        by_cases h4 : (couponFindAll (msg.map Char.toLower)).isEmpty <;>
          simp_all [List.isEmpty_iff]

/-- When every classification run fails (is degraded), the core line loop
reports nothing: a degraded verdict is treated exactly like "not spam". -/
theorem processLinesCore_exc_none (hosts : List Str) (excFor : Str → Option Str)
    (now : Str) (hexc : ∀ msg, (excFor msg).isSome = true) :
    ∀ lines, processLinesCore hosts excFor now lines = none := by
  intro lines
  induction lines with
  | nil => rfl
  | cons line rest ih =>
    unfold processLinesCore
    split
    · cases hfs : fromSearch line with
      | some g =>
        obtain ⟨g1, g2⟩ := g
        have := hexc g2
        cases he : excFor g2 with
        | none => rw [he] at this; simp at this
        | some e => simp [analyseSpamContent, he, isSpamOf, ih]
      | none => simp [ih]
    · exact ih

/-- If any line of the batch is a parse candidate, the client variant's
loop raises at the first such line, producing no report. -/
theorem clientProcessLines_raises :
    ∀ lines, (∃ line ∈ lines, containsSub "[INFO Client".toList line = true ∧
        (fromSearch line).isSome = true) →
      clientProcessLines lines = ([], true) := by
  intro lines
  induction lines with
  | nil => rintro ⟨l, hl, _⟩; simp at hl
  | cons line rest ih =>
    rintro ⟨l, hl, hc, hf⟩
    unfold clientProcessLines
    by_cases hcl : containsSub "[INFO Client".toList line = true
    · rw [if_pos hcl]
      cases hfs : fromSearch line with
      | some g => rfl
      | none =>
        rcases List.mem_cons.mp hl with h1 | h2
        · subst h1; rw [hfs] at hf; simp at hf
        · exact ih ⟨l, h2, hc, hf⟩
    · rw [if_neg hcl]
      rcases List.mem_cons.mp hl with h1 | h2
      · subst h1; exact absurd hc hcl
      · exact ih ⟨l, h2, hc, hf⟩

/-! Claim theorems. -/

/-- Claim C1 (code bug): the spec requires a report for *every* spam line of
a batch, and the method's own docstring promises a log entry "for each
detected spam message", but line 170 of `core_spam_monitor.py` returns from
inside the line loop at the first spam verdict after `last_size` was
already advanced.  On a batch holding the two spam lines of `c1content`,
the poll reports only Alice's line, Bob's message is classified spam as
well, and the follow-up poll (offset already at end of file) reports
nothing, so Bob's spam line is never reported. -/
theorem claim_C1_first_return_only :
    (coreCheckForSpam [] (fun _ => none) [] 0 c1env).report.map SpamReport.player
        = some "Alice".toList ∧
    (coreCheckForSpam [] (fun _ => none) [] 0 c1env).last_size = c1content.length ∧
    isSpamOf (analyseSpamContent [] none "dm discord:beta2".toList) = true ∧
    (coreCheckForSpam [] (fun _ => none) []
        (coreCheckForSpam [] (fun _ => none) [] 0 c1env).last_size c1env).report
      = none := by
  decide

/-- Claim C2: with `last_offset = 0` and the log file containing exactly the
line `[INFO Client 123] Xx_Player_xX: Buy ex/150$ cheap, dm discord:seller99`,
a single poll produces exactly one report, with player `Xx_Player_xX`, the
ratio token among the currency offers and `seller99` among the discord
handles. -/
theorem claim_C2_end_to_end :
    c2poll.report.isSome = true ∧
    c2poll.report.map SpamReport.player = some "Xx_Player_xX".toList ∧
    "ex/150".toList ∈ reportCurrency c2poll.report ∧
    "seller99".toList ∈ reportDiscord c2poll.report := by
  decide

/-- Claim C9: on the classifier's error path the returned dictionary holds
only `is_spam = false`; all four match fields are absent, unlike on the
normal path where they are always present. -/
theorem claim_C9_degraded_shape (hosts : List Str) (e msg : Str) :
    analyseSpamContent hosts (some e) msg = .degraded ∧
    isSpamOf (analyseSpamContent hosts (some e) msg) = false ∧
    (analyseSpamContent hosts (some e) msg).getUrls = none ∧
    (analyseSpamContent hosts (some e) msg).getDiscord = none ∧
    (analyseSpamContent hosts (some e) msg).getCurrency = none ∧
    (analyseSpamContent hosts (some e) msg).getCoupons = none ∧
    (analyseSpamContent hosts none msg).getUrls ≠ none ∧
    (analyseSpamContent hosts none msg).getDiscord ≠ none ∧
    (analyseSpamContent hosts none msg).getCurrency ≠ none ∧
    (analyseSpamContent hosts none msg).getCoupons ≠ none := by
  refine ⟨rfl, rfl, rfl, rfl, rfl, rfl, ?_, ?_, ?_, ?_⟩ <;>
    simp [analyseSpamContent, AnalyseResult.getUrls, AnalyseResult.getDiscord,
      AnalyseResult.getCurrency, AnalyseResult.getCoupons]

/-- Claim C4: the classifier applies all four category rules with no
short-circuiting — the result is exactly the structure whose four match
fields are the four independent `findall` results on the lowered message
and whose `is_spam` is true iff some category matched (hence a message with
zero matches yields `is_spam = false` and all fields empty) — and within
each category the recorded match positions strictly increase, i.e. matches
preserve left-to-right order of occurrence. -/
theorem claim_C4_classifier_shape (hosts : List Str) (msg : Str) :
    analyseSpamContentBody hosts msg =
      { is_spam := (!(urlFindAll hosts (msg.map Char.toLower)).isEmpty ||
                    !(discordFindAll (msg.map Char.toLower)).isEmpty ||
                    !(currencyFindAll (msg.map Char.toLower)).isEmpty ||
                    !(couponFindAll (msg.map Char.toLower)).isEmpty),
        detected_urls := urlFindAll hosts (msg.map Char.toLower),
        detected_discord := discordFindAll (msg.map Char.toLower),
        currency_offers := currencyFindAll (msg.map Char.toLower),
        coupon_codes := couponFindAll (msg.map Char.toLower) } ∧
    List.Chain' (· < ·)
      ((scanAllGo (urlMatchAt hosts) (msg.map Char.toLower) 0 0).map Prod.fst) ∧
    List.Chain' (· < ·)
      ((scanAllGo discordMatchAt (msg.map Char.toLower) 0 0).map Prod.fst) ∧
    List.Chain' (· < ·)
      ((scanAllGo currencyMatchAt (msg.map Char.toLower) 0 0).map Prod.fst) ∧
    List.Chain' (· < ·)
      ((scanAllGo couponMatchAt (msg.map Char.toLower) 0 0).map Prod.fst) := by
  obtain ⟨h1, h2, h3, h4, h5⟩ := analyseBody_fields hosts msg
  refine ⟨?_, scanAllGo_chain _ _ _, scanAllGo_chain _ _ _,
    scanAllGo_chain _ _ _, scanAllGo_chain _ _ _⟩
  cases hb : analyseSpamContentBody hosts msg with
  | mk a b c d e =>
    rw [hb] at h1 h2 h3 h4 h5
    dsimp only at h1 h2 h3 h4 h5
    subst h1 h2 h3 h4 h5
    rfl

/-- Claim C6: dispatch over the registered plugins is per-handler isolated:
the produced log is the pointwise image of the entries (an exception from
one handler yields its error record and dispatch continues), and, spelled
out, a raising handler anywhere in the registry leaves the logs of all
earlier and later handlers unchanged; the boolean result of a call only
selects between the success and failure log records. -/
theorem claim_C6_dispatch_isolated :
    (∀ ps : List PluginEntry, callPluginMethod ps = ps.filterMap dispatchEntry) ∧
    (∀ (pre post : List PluginEntry) (name e : Str),
      callPluginMethod (pre ++ (name, some (.raises e)) :: post) =
        callPluginMethod pre ++ .error name e :: callPluginMethod post) := by
  have hmain : ∀ ps : List PluginEntry, callPluginMethod ps = ps.filterMap dispatchEntry := by
    intro ps
    induction ps with
    | nil => rfl
    | cons p rest ih =>
      obtain ⟨name, res⟩ := p
      cases res with
      | none => simpa [callPluginMethod, dispatchEntry] using ih
      | some cr =>
        cases cr with
        | ok b => simp [callPluginMethod, dispatchEntry, ih]
        | raises e => simp [callPluginMethod, dispatchEntry, ih]
  refine ⟨hmain, ?_⟩
  intro pre post name e
  rw [hmain, List.filterMap_append, ← hmain, ← hmain]
  rfl

/-- Claim C3: whenever a poll shrinks below the stored offset the offset is
reset to 0 before the read (so a read after truncation starts at 0), the
offset handed to `file.seek` never exceeds the file size of the stat
snapshot, and a poll that completes without an error leaves `last_size` no
larger than that size. -/
theorem claim_C3_offset_invariant (hosts : List Str) (excFor : Str → Option Str)
    (now : Str) (ls : Nat) (env : PollEnv) :
    (∀ p, (coreCheckForSpam hosts excFor now ls env).seekPos = some p →
        p ≤ env.content.length ∧ (env.content.length < ls → p = 0)) ∧
    ((coreCheckForSpam hosts excFor now ls env).errorCaught = false →
        (coreCheckForSpam hosts excFor now ls env).last_size ≤ env.content.length) := by
  obtain ⟨fe, ct, se, oe, re⟩ := env
  cases fe <;> cases se <;> cases oe <;> cases re <;>
    simp only [coreCheckForSpam, Bool.not_true, Bool.not_false] <;>
    split_ifs <;>
    refine ⟨fun p hp => ?_, fun h => ?_⟩ <;>
    simp_all <;>
    omega

/-- Witness for claim C3 at a truncated file: offset 500, size 100, no I/O
failure; the poll seeks to 0 and ends with `last_size` within the size. -/
theorem claim_C3_offset_invariant_witness :
    ((0 : Nat) ≤ (List.replicate 100 'a').length ∧
      ((List.replicate 100 'a' : Str).length < 500 → (0 : Nat) = 0)) ∧
    (coreCheckForSpam [] (fun _ => none) [] 500
        ⟨true, List.replicate 100 'a', false, false, false⟩).last_size
      ≤ (List.replicate 100 'a').length :=
  ⟨(claim_C3_offset_invariant [] (fun _ => none) [] 500
      ⟨true, List.replicate 100 'a', false, false, false⟩).1 0 (by decide),
   (claim_C3_offset_invariant [] (fun _ => none) [] 500
      ⟨true, List.replicate 100 'a', false, false, false⟩).2 (by decide)⟩

/-- Claim C5: classification failure never escapes.  A run in which rule
application raises is answered by the `except` arm with the degraded
`is_spam = false` verdict, and a poll all of whose classification runs fail
reports nothing — the loop treats every failed classification exactly like
"not spam" and keeps going. -/
theorem claim_C5_no_propagation (hosts : List Str) (excFor : Str → Option Str)
    (now msg e : Str) (ls : Nat) (env : PollEnv)
    (hexc : ∀ m, (excFor m).isSome = true) :
    analyseSpamContent hosts (some e) msg = .degraded ∧
    isSpamOf (analyseSpamContent hosts (some e) msg) = false ∧
    (coreCheckForSpam hosts excFor now ls env).report = none := by
  refine ⟨rfl, rfl, ?_⟩
  obtain ⟨fe, ct, se, oe, re⟩ := env
  cases fe <;> cases se <;> cases oe <;> cases re <;>
    simp only [coreCheckForSpam, Bool.not_true, Bool.not_false] <;>
    split_ifs <;>
    simp [processLinesCore_exc_none hosts excFor now hexc]

/-- Witness for claim C5 on a concrete batch whose single candidate line
would classify as spam on a healthy run. -/
theorem claim_C5_no_propagation_witness :
    analyseSpamContent [] (some "e".toList) "x".toList = .degraded ∧
    isSpamOf (analyseSpamContent [] (some "e".toList) "x".toList) = false ∧
    (coreCheckForSpam [] (fun _ => some "e".toList) [] 0 c8env).report = none :=
  claim_C5_no_propagation [] (fun _ => some "e".toList) [] "x".toList "e".toList 0
    c8env (fun _ => rfl)

/-- Claim C7 counterexample: a poll in which the file shrank from offset
500 to 100 bytes and the subsequent `open` raises ends with `last_size = 0`,
not with the value 500 it held at the start of the poll — the truncation
reset (performed before the failed read) persists through the error. -/
theorem claim_C7_counterexample :
    (coreCheckForSpam [] (fun _ => none) [] 500 c7env).errorCaught = true ∧
    (coreCheckForSpam [] (fun _ => none) [] 500 c7env).last_size ≠ 500 ∧
    (coreCheckForSpam [] (fun _ => none) [] 500 c7env).last_size = 0 := by
  decide

/-- Claim C7 as amended: a poll that catches an error logs it, returns
without raising, reports nothing, and leaves `last_size` unchanged — except
that when the stat snapshot was smaller than `last_size`, the truncation
reset to 0 performed before the failed open/read persists. -/
theorem claim_C7_amended (hosts : List Str) (excFor : Str → Option Str)
    (now : Str) (ls : Nat) (env : PollEnv)
    (herr : (coreCheckForSpam hosts excFor now ls env).errorCaught = true) :
    (coreCheckForSpam hosts excFor now ls env).report = none ∧
    ((coreCheckForSpam hosts excFor now ls env).last_size = ls ∨
      (env.content.length < ls ∧
        (coreCheckForSpam hosts excFor now ls env).last_size = 0)) := by
  obtain ⟨fe, ct, se, oe, re⟩ := env
  cases fe <;> cases se <;> cases oe <;> cases re <;>
    simp only [coreCheckForSpam, Bool.not_true, Bool.not_false] at herr ⊢ <;>
    split_ifs at herr ⊢ <;>
    simp_all

/-- Witness for the amended claim C7 at the shrink-then-open-failure poll. -/
theorem claim_C7_amended_witness :
    (coreCheckForSpam [] (fun _ => none) [] 500 c7env).report = none ∧
    ((coreCheckForSpam [] (fun _ => none) [] 500 c7env).last_size = 500 ∨
      (c7env.content.length < 500 ∧
        (coreCheckForSpam [] (fun _ => none) [] 500 c7env).last_size = 0)) :=
  claim_C7_amended [] (fun _ => none) [] 500 c7env (by decide)

/-- Claim C8: in the `client.py` variant, any poll that reads new content
containing a parse-candidate line (`[INFO Client` marker and a
`from_pattern` match) hits the `self.analyze_spam_content` call — a method
the class does not define — so `AttributeError` is raised at the first such
line, swallowed by the outer generic handler; no spam is detected or
reported, and since `last_size` was advanced before the loop, a repeat poll
over the same file reads nothing, so those lines are never re-examined. -/
theorem claim_C8_client_attribute_error (ls : Nat) (env : PollEnv)
    (hex : env.fileExists = true) (hst : env.statErr = false)
    (hop : env.openErr = false) (hrd : env.readErr = false)
    (hgrow : (if env.content.length < ls then 0 else ls) < env.content.length)
    (hline : ∃ line ∈ splitLines
        (env.content.drop (if env.content.length < ls then 0 else ls)),
        containsSub "[INFO Client".toList line = true ∧
          (fromSearch line).isSome = true) :
    clientCheckForSpam ls env = ⟨env.content.length, [], true⟩ ∧
    clientCheckForSpam env.content.length env = ⟨env.content.length, [], false⟩ := by
  have hraise := clientProcessLines_raises _ hline
  constructor
  · simp only [clientCheckForSpam, hex, hst, hop, hrd, Bool.not_true]
    rw [if_pos hgrow, hraise]
    simp
  · simp [clientCheckForSpam, hex, hst, hop, hrd]

/-- Witness for claim C8: fresh tailer, single candidate line. -/
theorem claim_C8_client_attribute_error_witness :
    clientCheckForSpam 0 c8env = ⟨c8env.content.length, [], true⟩ ∧
    clientCheckForSpam c8env.content.length c8env
      = ⟨c8env.content.length, [], false⟩ :=
  claim_C8_client_attribute_error 0 c8env rfl rfl rfl rfl (by decide) (by decide)

/-- Claim C10: with an empty host block-list, pattern compilation joins the
hosts into the empty alternation, so the url rule fires on any `.`/`,`
directly followed by `com`, `net` or `org`; in particular every message
whose lowering contains `.com` is classified spam with a non-empty
`detected_urls`. -/
theorem claim_C10_empty_hostlist (msg : Str)
    (h : containsSub ".com".toList (msg.map Char.toLower) = true) :
    (∀ r : Str, (urlMatchAt [] ('.' :: 'c' :: 'o' :: 'm' :: r)).isSome = true) ∧
    (analyseSpamContentBody [] msg).is_spam = true ∧
    (analyseSpamContentBody [] msg).detected_urls ≠ [] := by
  obtain ⟨t, ht, hl⟩ := containsSub_suffix _ _ h
  obtain ⟨r, hr⟩ := hasLead_append _ _ hl
  have hdot : ".com".toList = ['.', 'c', 'o', 'm'] := rfl
  rw [hdot] at hr
  have hm : (urlMatchAt [] t).isSome = true := by
    rw [hr]; simp [urlMatchAt_dotcom]
  have hne : urlFindAll [] (msg.map Char.toLower) ≠ [] := by
    unfold urlFindAll findAll
    intro hcontra
    rw [List.map_eq_nil_iff] at hcontra
    exact scanAllGo_ne_nil (urlMatchAt_nil []) _ t ht hm 0 hcontra
  obtain ⟨h1, _, _, _, h5⟩ := analyseBody_fields [] msg
  refine ⟨fun r => by simp [urlMatchAt_dotcom], ?_, ?_⟩
  · rw [h5]
    have : (urlFindAll [] (msg.map Char.toLower)).isEmpty = false := by
      simpa [List.isEmpty_iff] using hne
    simp [this]
  · rw [h1]; exact hne

/-- Witness for claim C10 on a message containing an upper-case `.COM`. -/
theorem claim_C10_empty_hostlist_witness :
    (∀ r : Str, (urlMatchAt [] ('.' :: 'c' :: 'o' :: 'm' :: r)).isSome = true) ∧
    (analyseSpamContentBody [] "visit Example.COM today".toList).is_spam = true ∧
    (analyseSpamContentBody [] "visit Example.COM today".toList).detected_urls ≠ [] :=
  claim_C10_empty_hostlist "visit Example.COM today".toList (by decide)
